import Mathlib

/-!
# Verification of the riskcontrol analytics engine

A shallow embedding, in Lean 4, of the quantitative core of the
`riskcontrol` repository:

* `models/portfolio.py` — `PortfolioAnalytics`: input annualization,
  weight normalization, portfolio metrics, constrained optimization with a
  uniform-weight fallback, and the swept efficient frontier;
* `models/simulation.py` — `MonteCarloPlanner`: target-weight
  normalization at construction, the Monte Carlo wealth-path recursion,
  percentile summaries and the `run_simulation` orchestrator.

Python floats are modelled as rationals (`ℚ`), so all statements are about
exact real arithmetic; `np.sqrt` of a negative number (a NaN) is modelled
by `Option ℝ` with `none` playing the role of NaN.  The SciPy SLSQP solver
is external to the repository, so optimizers take an abstract `solver`
oracle as a parameter: the oracle receives the data of the sub-problem
(objective kind, `mu`, `cov`, the initial guess and the bounds) and
reports a success flag together with a candidate point, which is exactly
the interface `scipy.optimize.minimize` presents to the calling code.
Random sampling is likewise abstracted: `simulate_wealth_paths` receives
the per-year, per-simulation multivariate-normal draws as an explicit
`draws` function, which makes a seeded run a particular choice of `draws`.
-/

namespace RiskControl

/-- Dot product of two vectors, `np.dot` on equal-length float arrays. -/
def dot (xs ys : List ℚ) : ℚ := (List.zipWith (fun a b => a * b) xs ys).sum

/-- `PortfolioAnalytics.normalize_weights` (portfolio.py lines 16-22):
`s = w.sum()`; if `s == 0` return `np.full_like(w, 1.0/len(w))`, else `w / s`. -/
def normalize_weights (w : List ℚ) : List ℚ :=
  if w.sum = 0 then List.replicate w.length ((1 : ℚ) / w.length)
  else w.map (fun x => x / w.sum)

/-- `PortfolioAnalytics.portfolio_return` (portfolio.py lines 24-26):
`float(np.dot(weights, mu.values))`. -/
def portfolio_return (weights mu : List ℚ) : ℚ := dot weights mu

/-- The quadratic form `wᵗ · cov · w` computed by
`PortfolioAnalytics.portfolio_volatility` (portfolio.py lines 28-31) as
`(w.T @ cov.values @ w)[0, 0]` — the exact value handed to `np.sqrt`,
with no clamping applied. -/
def quadForm (w : List ℚ) (cov : List (List ℚ)) : ℚ :=
  (List.zipWith (fun wi row => wi * dot row w) w cov).sum

/-- `PortfolioAnalytics.portfolio_volatility` (portfolio.py lines 28-31):
`float(np.sqrt(quadForm))`.  `np.sqrt` of a negative float is NaN, modelled
as `none`; on a nonnegative radicand the result is `√radicand`. -/
noncomputable def portfolio_volatility (w : List ℚ) (cov : List (List ℚ)) : Option ℝ :=
  if quadForm w cov < 0 then none else some (Real.sqrt (quadForm w cov))

/-- Modelled from the spec (§4.3): the volatility the specification
describes, which clamps "any negative numerical noise under the radical to
zero before taking the square root".  Kept separate from
`portfolio_volatility`, which embeds the source and does not clamp. -/
noncomputable def portfolio_volatility_specClamped (w : List ℚ) (cov : List (List ℚ)) : ℝ :=
  Real.sqrt (max (quadForm w cov) 0)

/-- `PortfolioAnalytics.portfolio_sharpe` (portfolio.py lines 33-39):
`ret = portfolio_return(...)`, `vol = portfolio_volatility(...)`;
`0.0` if `vol == 0`, else `(ret - rf) / vol`.  A NaN volatility (negative
radicand) propagates to a NaN Sharpe, hence the `Option.map`. -/
noncomputable def portfolio_sharpe (w mu : List ℚ) (cov : List (List ℚ)) (rf : ℚ) : Option ℝ :=
  (portfolio_volatility w cov).map (fun v =>
    if v = 0 then 0 else (((portfolio_return w mu : ℚ) : ℝ) - (rf : ℚ)) / v)

/- ### Helper lemmas on sums of normalized vectors -/

theorem sum_map_div (l : List ℚ) (s : ℚ) : (l.map (fun x => x / s)).sum = l.sum / s := by
  induction l with
  | nil => simp
  | cons a t ih => simp [ih, add_div]

theorem sum_replicate_inv (n : ℕ) (hn : n ≠ 0) :
    (List.replicate n ((1 : ℚ) / n)).sum = 1 := by
  rw [List.sum_replicate, nsmul_eq_mul]
  field_simp

theorem normalize_weights_sum (w : List ℚ) (hw : w ≠ []) :
    (normalize_weights w).sum = 1 := by
  have hlen : w.length ≠ 0 := fun h => hw (List.eq_nil_of_length_eq_zero h)
  unfold normalize_weights
  split_ifs with hs
  · exact sum_replicate_inv w.length hlen
  · rw [sum_map_div]
    exact div_self hs

/-- C6: `normalize_weights` on a nonempty raw vector returns the uniform
vector `1/n` when the sum is zero (the code's degenerate-input test
`s == 0`), otherwise the input scaled by `1/sum`; in particular
`normalize([0,0,0]) = [1/3,1/3,1/3]`, and in every case the result sums
to `1` exactly (hence within `1e-6`). -/
theorem normalize_weights_spec (w : List ℚ) (hw : w ≠ []) :
    (w.sum = 0 → normalize_weights w = List.replicate w.length ((1 : ℚ) / w.length))
    ∧ (w.sum ≠ 0 → normalize_weights w = w.map (fun x => x / w.sum))
    ∧ normalize_weights [0, 0, 0] = [1/3, 1/3, 1/3]
    ∧ (normalize_weights w).sum = 1 := by
  refine ⟨fun hs => ?_, fun hs => ?_, ?_, normalize_weights_sum w hw⟩
  · simp [normalize_weights, hs]
  · simp [normalize_weights, hs]
  · norm_num [normalize_weights, List.replicate]

/-- Witness for C6 at the concrete raw vector `[2, 2]`. -/
theorem normalize_weights_spec_witness :
    ([(2 : ℚ), 2] ≠ [])
    ∧ (([(2 : ℚ), 2].sum = 0 →
          normalize_weights [(2 : ℚ), 2] =
            List.replicate [(2 : ℚ), 2].length ((1 : ℚ) / [(2 : ℚ), 2].length))
       ∧ ([(2 : ℚ), 2].sum ≠ 0 →
          normalize_weights [(2 : ℚ), 2] = [(2 : ℚ), 2].map (fun x => x / [(2 : ℚ), 2].sum))
       ∧ normalize_weights [0, 0, 0] = [1/3, 1/3, 1/3]
       ∧ (normalize_weights [(2 : ℚ), 2]).sum = 1) :=
  ⟨by simp, normalize_weights_spec [2, 2] (by simp)⟩

/- ### The abstract SLSQP oracle and the three optimizers -/

/-- The objective selector of one `scipy.optimize.minimize` call made by
`PortfolioAnalytics`: maximize Sharpe (negated), minimize volatility, or
minimize volatility under the frontier target-return equality. -/
inductive ProblemKind where
  | maxSharpe (rf : ℚ)
  | minVol
  | frontierPoint (target : ℚ)
deriving DecidableEq

/-- The data of one solver call: everything the Python code passes to
`minimize` (objective kind over `mu`/`cov`, initial guess `x0`, and the
per-asset bounds; the sum-to-one equality constraint is implied). -/
structure SolverProblem where
  kind : ProblemKind
  mu : List ℚ
  cov : List (List ℚ)
  x0 : List ℚ
  bounds : Option (ℚ × ℚ)
deriving DecidableEq

/-- The fields of a `scipy.optimize.OptimizeResult` the code reads:
`res.success` and `res.x`. -/
structure SolverResult where
  success : Bool
  x : List ℚ
deriving DecidableEq

/-- An abstract solver: SciPy's SLSQP is outside the repository, so the
optimizers are verified for every oracle of this type. -/
def Solver : Type := SolverProblem → SolverResult

/-- The uniform initial guess `x0 = np.full(n, 1.0 / n)`. -/
def uniformWeights (n : ℕ) : List ℚ := List.replicate n ((1 : ℚ) / n)

/-- `PortfolioAnalytics.optimize_max_sharpe` (portfolio.py lines 41-57):
solve from the uniform guess; on failure return `normalize_weights(x0)`,
on success `normalize_weights(res.x)`. -/
def optimize_max_sharpe (solver : Solver) (mu : List ℚ) (cov : List (List ℚ))
    (rf : ℚ) (bounds : Option (ℚ × ℚ)) : List ℚ :=
  let x0 := uniformWeights mu.length
  let res := solver ⟨ProblemKind.maxSharpe rf, mu, cov, x0, bounds⟩
  if res.success then normalize_weights res.x else normalize_weights x0

/-- `PortfolioAnalytics.optimize_min_vol` (portfolio.py lines 59-73):
same shape as `optimize_max_sharpe` with the volatility objective. -/
def optimize_min_vol (solver : Solver) (mu : List ℚ) (cov : List (List ℚ))
    (bounds : Option (ℚ × ℚ)) : List ℚ :=
  let x0 := uniformWeights mu.length
  let res := solver ⟨ProblemKind.minVol, mu, cov, x0, bounds⟩
  if res.success then normalize_weights res.x else normalize_weights x0

/- ### Efficient frontier -/

/-- The smallest element of a float series, `float(mu.min())`. -/
def minOf : List ℚ → ℚ
  | [] => 0
  | x :: xs => xs.foldl min x

/-- The largest element of a float series, `float(mu.max())`. -/
def maxOf : List ℚ → ℚ
  | [] => 0
  | x :: xs => xs.foldl max x

/-- The lower end of the target sweep (portfolio.py lines 87-91):
`r_min`, multiplied by `0.99` when `abs(r_max - r_min) < 1e-9`. -/
def loTarget (mu : List ℚ) : ℚ :=
  if |maxOf mu - minOf mu| < 1 / 1000000000 then minOf mu * (99 / 100) else minOf mu

/-- The upper end of the target sweep (portfolio.py lines 87-91):
`r_max`, multiplied by `1.01` when `abs(r_max - r_min) < 1e-9`. -/
def hiTarget (mu : List ℚ) : ℚ :=
  if |maxOf mu - minOf mu| < 1 / 1000000000 then maxOf mu * (101 / 100) else maxOf mu

/-- `np.linspace(a, b, n)`: `n` evenly spaced samples from `a` to `b`
inclusive (`[a]` when `n = 1`, `[]` when `n = 0`). -/
def linspace (a b : ℚ) (n : ℕ) : List ℚ :=
  if n ≤ 1 then List.replicate n a
  else (List.range n).map (fun i : ℕ => a + (b - a) * (i : ℚ) / ((n - 1 : ℕ) : ℚ))

/-- `targets = np.linspace(r_min, r_max, points)` (portfolio.py line 92). -/
def frontierTargets (mu : List ℚ) (points : ℕ) : List ℚ :=
  linspace (loTarget mu) (hiTarget mu) points

/-- One row of the frontier DataFrame: its `Return` column, the radicand
of its `Volatility` column (the reported volatility is `√volSq`, NaN when
`volSq < 0`), and the per-asset weights. -/
structure FrontierRow where
  ret : ℚ
  volSq : ℚ
  weights : List ℚ
deriving DecidableEq

/-- One iteration of the target sweep (portfolio.py lines 95-115): solve
the constrained problem for target `tr`; fall back to
`normalize_weights(x0)` on non-convergence; report the realized return,
volatility and weights of the (re-normalized) solution. -/
def frontierRowFor (solver : Solver) (mu : List ℚ) (cov : List (List ℚ))
    (bounds : Option (ℚ × ℚ)) (x0 : List ℚ) (tr : ℚ) : FrontierRow :=
  let res := solver ⟨ProblemKind.frontierPoint tr, mu, cov, x0, bounds⟩
  let w := if res.success then normalize_weights res.x else normalize_weights x0
  ⟨portfolio_return w mu, quadForm w cov, w⟩

/-- The `sort_values('Volatility')` key order on rows, as a Boolean
comparison: plain `≤` on the volatility radicands (equivalent to `≤` on
the volatilities, since `√` is monotone), with a NaN volatility
(negative radicand) ordered after every number, which is where pandas
places NaN (`na_position='last'`). -/
def rowLe (a b : FrontierRow) : Bool :=
  if b.volSq < 0 then true
  else if a.volSq < 0 then false
  else decide (a.volSq ≤ b.volSq)

/-- `rowLe` as a relation, for `List.Sorted`. -/
def rowLE (a b : FrontierRow) : Prop := rowLe a b = true

instance : DecidableRel rowLE := fun a b => by
  unfold rowLE
  infer_instance

instance : IsTotal FrontierRow rowLE := ⟨by
  intro a b
  unfold rowLE rowLe
  by_cases hb : b.volSq < 0
  · exact Or.inl (by simp [hb])
  · by_cases ha : a.volSq < 0
    · exact Or.inr (by simp [ha])
    · rcases le_total a.volSq b.volSq with h | h
      · exact Or.inl (by simp [hb, ha, h])
      · exact Or.inr (by simp [ha, hb, h])⟩

instance : IsTrans FrontierRow rowLE := ⟨by
  intro a b c hab hbc
  unfold rowLE rowLe at *
  split_ifs at *
  all_goals simp_all only [decide_eq_true_eq]
  all_goals linarith⟩

/-- `PortfolioAnalytics.efficient_frontier` (portfolio.py lines 75-118):
sweep the targets, build one row per target, and return the rows sorted
ascending by the `Volatility` column. -/
def efficient_frontier (solver : Solver) (mu : List ℚ) (cov : List (List ℚ))
    (points : ℕ) (bounds : Option (ℚ × ℚ)) : List FrontierRow :=
  List.insertionSort rowLE
    ((frontierTargets mu points).map
      (frontierRowFor solver mu cov bounds (uniformWeights mu.length)))

/- ### Concrete solver oracles used in witnesses and counterexamples -/

/-- An oracle that never converges (`res.success = False` always). -/
def solverFail : Solver := fun _ => ⟨false, []⟩

/-- An oracle that converges immediately at the initial guess. -/
def solverUniform : Solver := fun p => ⟨true, p.x0⟩

theorem uniformWeights_ne_nil (n : ℕ) (hn : n ≠ 0) : uniformWeights n ≠ [] := by
  unfold uniformWeights
  intro h
  exact hn (by simpa using congrArg List.length h)

/-- C3 (amended): neither optimizer nor any frontier sub-problem can raise
on solver non-convergence — each is a total function that, whenever the
oracle reports failure, returns the re-normalized uniform initial guess —
and for nonempty `mu` every reported weight vector is re-normalized to sum
to `1`.  (The degradation is silent: the code exposes no diagnostic flag
and writes no log, see the counterexample.) -/
theorem optimizer_fallback_spec (solver : Solver) (mu : List ℚ) (cov : List (List ℚ))
    (rf : ℚ) (bounds : Option (ℚ × ℚ)) (points : ℕ) :
    ((solver ⟨ProblemKind.maxSharpe rf, mu, cov, uniformWeights mu.length, bounds⟩).success = false →
        optimize_max_sharpe solver mu cov rf bounds = normalize_weights (uniformWeights mu.length))
    ∧ ((solver ⟨ProblemKind.minVol, mu, cov, uniformWeights mu.length, bounds⟩).success = false →
        optimize_min_vol solver mu cov bounds = normalize_weights (uniformWeights mu.length))
    ∧ (∀ tr : ℚ,
        (solver ⟨ProblemKind.frontierPoint tr, mu, cov, uniformWeights mu.length, bounds⟩).success = false →
        (frontierRowFor solver mu cov bounds (uniformWeights mu.length) tr).weights
          = normalize_weights (uniformWeights mu.length))
    ∧ (mu ≠ [] →
        (∀ p : SolverProblem, (solver p).success = true → (solver p).x ≠ []) →
        (optimize_max_sharpe solver mu cov rf bounds).sum = 1
        ∧ (optimize_min_vol solver mu cov bounds).sum = 1
        ∧ ∀ row ∈ efficient_frontier solver mu cov points bounds, row.weights.sum = 1) := by
  have hlen : mu ≠ [] → mu.length ≠ 0 := by
    intro h hl
    exact h (List.eq_nil_of_length_eq_zero hl)
  refine ⟨fun h => ?_, fun h => ?_, fun tr h => ?_, fun hmu hsol => ⟨?_, ?_, ?_⟩⟩
  · simp [optimize_max_sharpe, h]
  · simp [optimize_min_vol, h]
  · simp [frontierRowFor, h]
  · cases h : (solver ⟨ProblemKind.maxSharpe rf, mu, cov, uniformWeights mu.length, bounds⟩).success with
    | false =>
      simp only [optimize_max_sharpe, h, Bool.false_eq_true, if_false]
      exact normalize_weights_sum _ (uniformWeights_ne_nil _ (hlen hmu))
    | true =>
      simp only [optimize_max_sharpe, h, if_true]
      exact normalize_weights_sum _ (hsol _ h)
  · cases h : (solver ⟨ProblemKind.minVol, mu, cov, uniformWeights mu.length, bounds⟩).success with
    | false =>
      simp only [optimize_min_vol, h, Bool.false_eq_true, if_false]
      exact normalize_weights_sum _ (uniformWeights_ne_nil _ (hlen hmu))
    | true =>
      simp only [optimize_min_vol, h, if_true]
      exact normalize_weights_sum _ (hsol _ h)
  · intro row hrow
    unfold efficient_frontier at hrow
    rw [(List.perm_insertionSort rowLE _).mem_iff, List.mem_map] at hrow
    obtain ⟨tr, _, hrw⟩ := hrow
    rw [← hrw]
    cases h : (solver ⟨ProblemKind.frontierPoint tr, mu, cov, uniformWeights mu.length, bounds⟩).success with
    | false =>
      simp only [frontierRowFor, h, Bool.false_eq_true, if_false]
      exact normalize_weights_sum _ (uniformWeights_ne_nil _ (hlen hmu))
    | true =>
      simp only [frontierRowFor, h, if_true]
      exact normalize_weights_sum _ (hsol _ h)

/-- Witness for C3 at the always-failing oracle on a concrete two-asset
problem. -/
theorem optimizer_fallback_spec_witness :
    (solverFail ⟨ProblemKind.maxSharpe 0, [1/10, 1/5], [[1, 0], [0, 1]],
        uniformWeights 2, none⟩).success = false
    ∧ optimize_max_sharpe solverFail [1/10, 1/5] [[1, 0], [0, 1]] 0 none
        = normalize_weights (uniformWeights 2)
    ∧ ([(1 : ℚ)/10, 1/5] ≠ [])
    ∧ (optimize_max_sharpe solverFail [1/10, 1/5] [[1, 0], [0, 1]] 0 none).sum = 1
    ∧ (optimize_min_vol solverFail [1/10, 1/5] [[1, 0], [0, 1]] none).sum = 1 := by
  have hs : ∀ p : SolverProblem, (solverFail p).success = true → (solverFail p).x ≠ [] := by
    intro p hp
    simp [solverFail] at hp
  refine ⟨rfl, ?_, by simp, ?_, ?_⟩
  · exact (optimizer_fallback_spec solverFail [1/10, 1/5] [[1, 0], [0, 1]] 0 none 2).1 rfl
  · exact ((optimizer_fallback_spec solverFail [1/10, 1/5] [[1, 0], [0, 1]] 0 none 2).2.2.2
      (by simp) hs).1
  · exact ((optimizer_fallback_spec solverFail [1/10, 1/5] [[1, 0], [0, 1]] 0 none 2).2.2.2
      (by simp) hs).2.1

/-- Counterexample for C3 as stated: the degradation is NOT observable.
An oracle that fails to converge and an oracle that converges (at the
uniform guess) produce byte-identical outputs, and the code exposes no
diagnostic flag and writes no log, so no caller can detect the fallback. -/
theorem optimizer_observability_counterexample :
    optimize_max_sharpe solverFail [1/10, 1/5] [[1, 0], [0, 1]] 0 none
      = optimize_max_sharpe solverUniform [1/10, 1/5] [[1, 0], [0, 1]] 0 none
    ∧ (solverFail ⟨ProblemKind.maxSharpe 0, [1/10, 1/5], [[1, 0], [0, 1]],
        uniformWeights 2, none⟩).success = false
    ∧ (solverUniform ⟨ProblemKind.maxSharpe 0, [1/10, 1/5], [[1, 0], [0, 1]],
        uniformWeights 2, none⟩).success = true := by
  refine ⟨?_, rfl, rfl⟩
  simp [optimize_max_sharpe, solverFail, solverUniform]

/- ### Efficient frontier: shape, ordering and target spacing -/

theorem getD_map_range {α : Type} (f : ℕ → α) (k i : ℕ) (d : α) (h : i < k) :
    ((List.range k).map f).getD i d = f i := by
  rw [List.getD_eq_getElem?_getD, List.getElem?_map, List.getElem?_range h]
  rfl

theorem linspace_length (a b : ℚ) (n : ℕ) : (linspace a b n).length = n := by
  unfold linspace
  split_ifs with h
  · simp
  · simp

/-- C2 (amended): for every `points ≥ 2` the frontier has exactly `points`
rows, sorted non-decreasing (not strictly: ties are possible) by the
`Volatility` sort key; the swept targets are evenly spaced between the
endpoints the code computes — `0.99·min(mu)` and `1.01·max(mu)` when
`|max(mu) − min(mu)| < 1e-9`, else `min(mu)` and `max(mu)` — and that
multiplicative widening strictly contains the common value only when it
is positive. -/
theorem efficient_frontier_spec (solver : Solver) (mu : List ℚ) (cov : List (List ℚ))
    (points : ℕ) (bounds : Option (ℚ × ℚ)) (hpts : 2 ≤ points) :
    (efficient_frontier solver mu cov points bounds).length = points
    ∧ List.Sorted rowLE (efficient_frontier solver mu cov points bounds)
    ∧ (∀ i : ℕ, i < points →
        (frontierTargets mu points).getD i 0
          = loTarget mu + (hiTarget mu - loTarget mu) * i / ((points - 1 : ℕ) : ℚ))
    ∧ (minOf mu = maxOf mu → 0 < maxOf mu →
        loTarget mu < minOf mu ∧ maxOf mu < hiTarget mu) := by
  refine ⟨?_, ?_, fun i hi => ?_, fun heq hpos => ?_⟩
  · unfold efficient_frontier
    rw [List.length_insertionSort, List.length_map]
    exact linspace_length _ _ _ ▸ rfl
  · exact List.sorted_insertionSort rowLE _
  · unfold frontierTargets linspace
    rw [if_neg (by omega)]
    exact getD_map_range _ points i 0 hi
  · have hlt : |maxOf mu - minOf mu| < 1 / 1000000000 := by
      rw [heq]
      norm_num
    constructor
    · rw [loTarget, if_pos hlt, heq]
      nlinarith
    · rw [hiTarget, if_pos hlt]
      nlinarith

/-- Witness for C2 at the always-failing oracle, `points = 2`. -/
theorem efficient_frontier_spec_witness :
    (2 ≤ 2)
    ∧ ((efficient_frontier solverFail [1/10, 1/5] [[1, 0], [0, 1]] 2 none).length = 2
       ∧ List.Sorted rowLE (efficient_frontier solverFail [1/10, 1/5] [[1, 0], [0, 1]] 2 none)
       ∧ (∀ i : ℕ, i < 2 →
           (frontierTargets [1/10, 1/5] 2).getD i 0
             = loTarget [1/10, 1/5]
               + (hiTarget [1/10, 1/5] - loTarget [1/10, 1/5]) * i / (((2 - 1 : ℕ)) : ℚ))
       ∧ (minOf [1/10, 1/5] = maxOf [1/10, 1/5] → 0 < maxOf [1/10, 1/5] →
           loTarget [1/10, 1/5] < minOf [1/10, 1/5]
           ∧ maxOf [1/10, 1/5] < hiTarget [1/10, 1/5])) :=
  ⟨le_refl 2, efficient_frontier_spec solverFail [1/10, 1/5] [[1, 0], [0, 1]] 2 none (le_refl 2)⟩

/-- Counterexample for C2 as stated, at `mu = [0, 0]`, a zero covariance
and a non-converging oracle with `points = 2`: both frontier rows carry
the same volatility (radicand `0`, so volatility `√0` twice), hence the
result is NOT strictly sorted ascending by volatility; and since the
widening is multiplicative (`0.99·min`, `1.01·max`), for the common value
`0` the swept interval stays `[0, 0]` and does not strictly contain it. -/
theorem efficient_frontier_counterexample :
    ((efficient_frontier solverFail [0, 0] [[0, 0], [0, 0]] 2 (some (0, 1))).map
        FrontierRow.volSq) = [0, 0]
    ∧ ¬ List.Pairwise
        (fun a b : FrontierRow => Real.sqrt a.volSq < Real.sqrt b.volSq)
        (efficient_frontier solverFail [0, 0] [[0, 0], [0, 0]] 2 (some (0, 1)))
    ∧ minOf [0, 0] = 0 ∧ maxOf [0, 0] = 0
    ∧ loTarget [0, 0] = 0 ∧ hiTarget [0, 0] = 0
    ∧ frontierTargets [0, 0] 2 = [0, 0] := by
  have hmin : minOf [0, 0] = 0 := by
    norm_num [minOf]
  have hmax : maxOf [0, 0] = 0 := by
    norm_num [maxOf]
  have hlo : loTarget [0, 0] = 0 := by
    rw [loTarget, if_pos (by rw [hmin, hmax]; norm_num)]
    rw [hmin]
    ring
  have hhi : hiTarget [0, 0] = 0 := by
    rw [hiTarget, if_pos (by rw [hmin, hmax]; norm_num)]
    rw [hmax]
    ring
  have htargets : frontierTargets [0, 0] 2 = [0, 0] := by
    unfold frontierTargets linspace
    rw [hlo, hhi, if_neg (by omega)]
    norm_num [List.range_succ]
  have hrow : frontierRowFor solverFail [0, 0] [[0, 0], [0, 0]] (some (0, 1))
      (uniformWeights 2) 0 = ⟨0, 0, [1/2, 1/2]⟩ := by
    simp only [frontierRowFor, solverFail, Bool.false_eq_true, if_false]
    have hw : normalize_weights (uniformWeights 2) = [1/2, 1/2] := by
      norm_num [normalize_weights, uniformWeights, List.replicate]
    rw [hw]
    norm_num [portfolio_return, quadForm, dot]
  have hfr : efficient_frontier solverFail [0, 0] [[0, 0], [0, 0]] 2 (some (0, 1))
      = [⟨0, 0, [1/2, 1/2]⟩, ⟨0, 0, [1/2, 1/2]⟩] := by
    have hlen2 : ([(0 : ℚ), 0]).length = 2 := rfl
    rw [efficient_frontier, hlen2, htargets]
    rw [List.map_cons, List.map_cons, List.map_nil, hrow]
    have hle : rowLE ⟨0, 0, [1/2, 1/2]⟩ ⟨0, 0, [1/2, 1/2]⟩ := by
      simp [rowLE, rowLe]
    simp [List.insertionSort, List.orderedInsert, hle]
  refine ⟨?_, ?_, hmin, hmax, hlo, hhi, htargets⟩
  · rw [hfr]
    rfl
  · rw [hfr]
    intro hpair
    have := List.rel_of_pairwise_cons hpair (List.mem_singleton.mpr rfl)
    exact lt_irrefl _ this

/- ### Volatility and Sharpe -/

/-- C5 (amended): `portfolio_volatility` takes the square root of the
quadratic form without any clamping: on a nonnegative quadratic form the
result is the well-defined nonnegative real `√(wᵗ·cov·w)` (including the
zero-variance case), but on a negative quadratic form the unclamped
radicand makes `np.sqrt` return NaN (`none`), not a nonnegative real. -/
theorem portfolio_volatility_spec (w : List ℚ) (cov : List (List ℚ)) :
    (0 ≤ quadForm w cov →
        portfolio_volatility w cov = some (Real.sqrt (quadForm w cov))
        ∧ (0 : ℝ) ≤ Real.sqrt (quadForm w cov))
    ∧ (quadForm w cov < 0 → portfolio_volatility w cov = none) := by
  constructor
  · intro h
    rw [portfolio_volatility, if_neg (not_lt.mpr h)]
    exact ⟨rfl, Real.sqrt_nonneg _⟩
  · intro h
    rw [portfolio_volatility, if_pos h]

/-- Witness for C5 at the one-asset unit-variance input. -/
theorem portfolio_volatility_spec_witness :
    0 ≤ quadForm [1] [[1]]
    ∧ portfolio_volatility [1] [[1]] = some (Real.sqrt (quadForm [1] [[1]]))
    ∧ (0 : ℝ) ≤ Real.sqrt (quadForm [1] [[1]]) := by
  have h : 0 ≤ quadForm [1] [[1]] := by
    norm_num [quadForm, dot]
  exact ⟨h, ((portfolio_volatility_spec [1] [[1]]).1 h).1,
    ((portfolio_volatility_spec [1] [[1]]).1 h).2⟩

/-- Counterexample for C5 as stated, at the slightly indefinite input
`w = [1]`, `cov = [[-1]]`: the quadratic form is `-1` and the code hands
it to `np.sqrt` unclamped, so the volatility is NaN (`none`) rather than
the `0` the spec's clamp-before-sqrt would produce. -/
theorem portfolio_volatility_counterexample :
    quadForm [1] [[-1]] = -1
    ∧ portfolio_volatility [1] [[-1]] = none
    ∧ portfolio_volatility_specClamped [1] [[-1]] = 0 := by
  have hq : quadForm [1] [[-1]] = -1 := by
    norm_num [quadForm, dot]
  refine ⟨hq, ?_, ?_⟩
  · rw [portfolio_volatility, if_pos (by rw [hq]; norm_num)]
  · rw [portfolio_volatility_specClamped, hq]
    rw [max_eq_right (by norm_num : ((-1 : ℚ) : ℝ) ≤ 0)]
    exact Real.sqrt_zero

/-- C7: whenever the volatility is a well-defined number, the Sharpe
ratio is exactly `0.0` if that volatility is `0` (degenerate-portfolio
policy, not a division error), and `(return − rf)/vol` otherwise. -/
theorem portfolio_sharpe_spec (w mu : List ℚ) (cov : List (List ℚ)) (rf : ℚ) :
    (portfolio_volatility w cov = some 0 → portfolio_sharpe w mu cov rf = some 0)
    ∧ (∀ v : ℝ, portfolio_volatility w cov = some v → v ≠ 0 →
        portfolio_sharpe w mu cov rf
          = some ((((portfolio_return w mu : ℚ) : ℝ) - ((rf : ℚ) : ℝ)) / v)) := by
  constructor
  · intro h
    rw [portfolio_sharpe, h]
    simp
  · intro v h hv
    rw [portfolio_sharpe, h]
    simp [hv]

/-- Witness for C7: a zero-variance portfolio has Sharpe exactly `0`, and
a unit-variance portfolio has Sharpe `(return − rf)/1`. -/
theorem portfolio_sharpe_spec_witness :
    portfolio_volatility [1] [[0]] = some 0
    ∧ portfolio_sharpe [1] [1/10] [[0]] 0 = some 0
    ∧ portfolio_volatility [1] [[1]] = some 1
    ∧ (1 : ℝ) ≠ 0
    ∧ portfolio_sharpe [1] [1/10] [[1]] 0
        = some ((((portfolio_return [1] [1/10] : ℚ) : ℝ) - ((0 : ℚ) : ℝ)) / 1) := by
  have hq0 : quadForm [1] [[0]] = 0 := by
    norm_num [quadForm, dot]
  have hq1 : quadForm [1] [[1]] = 1 := by
    norm_num [quadForm, dot]
  have hv0 : portfolio_volatility [1] [[0]] = some 0 := by
    rw [portfolio_volatility, if_neg (by rw [hq0]; norm_num), hq0]
    norm_num [Real.sqrt_zero]
  have hv1 : portfolio_volatility [1] [[1]] = some 1 := by
    rw [portfolio_volatility, if_neg (by rw [hq1]; norm_num), hq1]
    norm_num [Real.sqrt_one]
  exact ⟨hv0, (portfolio_sharpe_spec [1] [1/10] [[0]] 0).1 hv0, hv1, one_ne_zero,
    (portfolio_sharpe_spec [1] [1/10] [[1]] 0).2 1 hv1 one_ne_zero⟩

/- ### Input annualization (portfolio.py lines 10-14) -/

/-- Column `j` of the return table (rows are observations). -/
def colVals (rows : List (List ℚ)) (j : ℕ) : List ℚ := rows.map (fun r => r.getD j 0)

/-- pandas `returns.mean()` for column `j`: NaN (`none`) on an empty
table, otherwise the arithmetic mean. -/
def colMean (rows : List (List ℚ)) (j : ℕ) : Option ℚ :=
  if rows.length = 0 then none
  else some ((colVals rows j).sum / (rows.length : ℚ))

/-- pandas `returns.cov()` entry `(i, j)`: the sample covariance
(`ddof = 1`), which is NaN (`none`) on fewer than 2 observations. -/
def sampleCov (rows : List (List ℚ)) (i j : ℕ) : Option ℚ :=
  if rows.length < 2 then none
  else
    some ((List.zipWith
        (fun a b => (a - (colVals rows i).sum / (rows.length : ℚ))
          * (b - (colVals rows j).sum / (rows.length : ℚ)))
        (colVals rows i) (colVals rows j)).sum / ((rows.length : ℚ) - 1))

/-- `PortfolioAnalytics.annualized_inputs` (portfolio.py lines 10-14):
`mu = returns.mean() * periods`; `cov = returns.cov() * periods`.  The
source performs no validation of the number of observations: short tables
flow through pandas and yield NaN entries, not an exception. -/
def annualized_inputs (rows : List (List ℚ)) (nAssets : ℕ) (periods : ℚ) :
    List (Option ℚ) × List (List (Option ℚ)) :=
  ((List.range nAssets).map (fun j => (colMean rows j).map (fun m => m * periods)),
   (List.range nAssets).map (fun i =>
     (List.range nAssets).map (fun j => (sampleCov rows i j).map (fun c => c * periods))))

/-- C4 (amended): `annualized_inputs` returns per-asset
`mean · periods` and sample-covariance `· periods`; with fewer than 2
observations it does NOT fail — the covariance entries are NaN (`none`)
while the mean is still defined for a 1-observation table. -/
theorem annualized_inputs_spec (rows : List (List ℚ)) (nAssets : ℕ) (periods : ℚ)
    (i j : ℕ) (hi : i < nAssets) (hj : j < nAssets) :
    (rows ≠ [] →
        (annualized_inputs rows nAssets periods).1.getD j none
          = some ((colVals rows j).sum / (rows.length : ℚ) * periods))
    ∧ (2 ≤ rows.length →
        ((annualized_inputs rows nAssets periods).2.getD i []).getD j none
          = some ((List.zipWith
              (fun a b => (a - (colVals rows i).sum / (rows.length : ℚ))
                * (b - (colVals rows j).sum / (rows.length : ℚ)))
              (colVals rows i) (colVals rows j)).sum / ((rows.length : ℚ) - 1) * periods))
    ∧ (rows.length < 2 →
        ((annualized_inputs rows nAssets periods).2.getD i []).getD j none = none) := by
  refine ⟨fun hne => ?_, fun h2 => ?_, fun h1 => ?_⟩
  · rw [annualized_inputs]
    rw [getD_map_range _ nAssets j none hj]
    rw [colMean, if_neg (fun h => hne (List.eq_nil_of_length_eq_zero h))]
    rfl
  · rw [annualized_inputs]
    rw [getD_map_range _ nAssets i [] hi, getD_map_range _ nAssets j none hj]
    rw [sampleCov, if_neg (by omega)]
    rfl
  · rw [annualized_inputs]
    rw [getD_map_range _ nAssets i [] hi, getD_map_range _ nAssets j none hj]
    rw [sampleCov, if_pos h1]
    rfl

/-- Witness for C4 at a 2-observation, 2-asset table. -/
theorem annualized_inputs_spec_witness :
    ([[(1 : ℚ), 2], [3, 4]] ≠ []) ∧ 2 ≤ [[(1 : ℚ), 2], [3, 4]].length
    ∧ (annualized_inputs [[(1 : ℚ), 2], [3, 4]] 2 252).1.getD 1 none
        = some ((colVals [[(1 : ℚ), 2], [3, 4]] 1).sum / (([[(1 : ℚ), 2], [3, 4]].length : ℕ) : ℚ) * 252)
    ∧ ((annualized_inputs [[(1 : ℚ), 2], [3, 4]] 2 252).2.getD 0 []).getD 1 none
        = some ((List.zipWith
            (fun a b => (a - (colVals [[(1 : ℚ), 2], [3, 4]] 0).sum / (([[(1 : ℚ), 2], [3, 4]].length : ℕ) : ℚ))
              * (b - (colVals [[(1 : ℚ), 2], [3, 4]] 1).sum / (([[(1 : ℚ), 2], [3, 4]].length : ℕ) : ℚ)))
            (colVals [[(1 : ℚ), 2], [3, 4]] 0) (colVals [[(1 : ℚ), 2], [3, 4]] 1)).sum
            / ((([[(1 : ℚ), 2], [3, 4]].length : ℕ) : ℚ) - 1) * 252) := by
  refine ⟨by simp, by simp, ?_, ?_⟩
  · exact (annualized_inputs_spec [[(1 : ℚ), 2], [3, 4]] 2 252 0 1
      (by norm_num) (by norm_num)).1 (by simp)
  · exact (annualized_inputs_spec [[(1 : ℚ), 2], [3, 4]] 2 252 0 1
      (by norm_num) (by norm_num)).2.1 (by simp)

/-- Counterexample for C4 as stated: on a 1-observation table the code
does not raise any error — it returns a well-formed pair whose mean
entries are defined numbers and whose covariance entries are all NaN
(`none`). -/
theorem annualized_inputs_counterexample :
    annualized_inputs [[1/100, 2/100]] 2 252
      = ([some (63/25), some (126/25)], [[none, none], [none, none]]) := by
  have h0 : colMean [[1/100, 2/100]] 0 = some (1/100) := by
    norm_num [colMean, colVals]
  have h1 : colMean [[1/100, 2/100]] 1 = some (2/100) := by
    norm_num [colMean, colVals]
  have hc : ∀ i j : ℕ, sampleCov [[(1 : ℚ)/100, 2/100]] i j = none := by
    intro i j
    rw [sampleCov, if_pos (by norm_num)]
  simp only [annualized_inputs, List.range_succ, List.range_zero, List.nil_append,
    List.map_cons, List.map_nil, List.cons_append, h0, h1, hc, Option.map_some,
    Option.map_none]
  norm_num

/- ### Monte Carlo planner (src/models/simulation.py) -/

/-- The state of a `MonteCarloPlanner` after `__init__`. -/
structure Planner where
  expected_returns : List ℚ
  covariance : List (List ℚ)
  weights : List ℚ
  inflation : ℚ
deriving DecidableEq

/-- `MonteCarloPlanner.__init__` (simulation.py lines 26-52), array-weights
path: reject a length mismatch; reject a weight sum within `np.isclose`'s
absolute tolerance `1e-8` of zero (`np.isclose(total, 0.0)` is
`|total| ≤ atol = 1e-8` at `b = 0`); otherwise store `weights / sum`.
(The `pd.Series` branch only re-aligns labels before the same checks.) -/
def mkPlanner (expected_returns : List ℚ) (covariance : List (List ℚ))
    (weights : List ℚ) (inflation : ℚ) : Except String Planner :=
  if weights.length ≠ expected_returns.length then
    Except.error "Weights size must match expected_returns length."
  else if |weights.sum| ≤ 1 / 100000000 then
    Except.error "Weights must sum to a positive number."
  else
    Except.ok ⟨expected_returns, covariance, weights.map (fun x => x / weights.sum), inflation⟩

/-- `contrib_schedule[year] = annual_contribution * (1 + growth) ** year`
(simulation.py line 96). -/
def contribAt (annual growth : ℚ) (year : ℕ) : ℚ := annual * (1 + growth) ^ year

/-- The clipped nominal portfolio return of pair `(year, sim)`:
`np.clip(draw · weights, -0.99, None)` (simulation.py lines 89-90). -/
def clippedReturn (p : Planner) (draws : ℕ → ℕ → List ℚ) (year sim : ℕ) : ℚ :=
  max (dot (draws year sim) p.weights) (-(99 / 100))

/-- The real (inflation-adjusted) return (simulation.py lines 98-99):
`(1 + nominal) / (1 + inflation) - 1`. -/
def adjustedReturn (p : Planner) (draws : ℕ → ℕ → List ℚ) (year sim : ℕ) : ℚ :=
  (1 + clippedReturn p draws year sim) / (1 + p.inflation) - 1

/-- The accumulation recursion of simulation.py lines 101-107 before
clamping: `wealth[0] = initial`;
`wealth[y+1] = (max(wealth[y], 0) + contrib[y]) * (1 + adjusted[y])`.
A stored matrix entry is `max (wealthRaw …) 0`: the in-loop clamp of line
106 rewrites every column but the last in place, and the final
`np.maximum(wealth, 0.0)` of line 109 clamps the last one, and clamping
an already-clamped argument of `max · 0` is idempotent. -/
def wealthRaw (p : Planner) (iw ac g : ℚ) (draws : ℕ → ℕ → List ℚ) (sim : ℕ) : ℕ → ℚ
  | 0 => iw
  | year + 1 =>
      (max (wealthRaw p iw ac g draws sim year) 0 + contribAt ac g year)
        * (1 + adjustedReturn p draws year sim)

/-- `MonteCarloPlanner.simulate_wealth_paths` (simulation.py lines
54-110).  The four validations run before any use of `draws` (the model
of "before any random sampling occurs"); on valid input the result is the
`n_sims × (horizon_years+1)` matrix of clamped wealth values. -/
def simulate_wealth_paths (p : Planner) (initial_wealth annual_contribution : ℚ)
    (horizon_years n_sims : ℤ) (contribution_growth : Option ℚ)
    (draws : ℕ → ℕ → List ℚ) : Except String (List (List ℚ)) :=
  if horizon_years ≤ 0 then Except.error "horizon_years must be greater than zero."
  else if initial_wealth < 0 then Except.error "initial_wealth must be non-negative."
  else if annual_contribution < 0 then Except.error "annual_contribution must be non-negative."
  else if n_sims ≤ 0 then Except.error "n_sims must be positive."
  else
    Except.ok ((List.range n_sims.toNat).map (fun sim =>
      (List.range (horizon_years.toNat + 1)).map (fun year =>
        max (wealthRaw p initial_wealth annual_contribution
          (contribution_growth.getD 0) draws sim year) 0)))

/-- `np.floor` on the nonnegative interpolation positions used by
`np.percentile` (every percentile level this code requests lies in
`[0, 100]`, so positions are never negative). -/
def posFloor (x : ℚ) : ℕ := x.num.toNat / x.den

/-- `np.percentile(values, q)` with the default linear interpolation:
sort ascending, set `pos = q/100 · (n−1)`, and interpolate between the
two bracketing order statistics. -/
def percentile (values : List ℚ) (q : ℚ) : ℚ :=
  let s := List.insertionSort (fun a b : ℚ => a ≤ b) values
  let pos := q / 100 * ((values.length : ℚ) - 1)
  let i := posFloor pos
  let lo := s.getD i 0
  let hi := s.getD (i + 1) lo
  lo + (pos - (i : ℚ)) * (hi - lo)

/-- Column `year` of the wealth matrix. -/
def matColumn (M : List (List ℚ)) (year : ℕ) : List ℚ :=
  M.map (fun row => row.getD year 0)

/-- `MonteCarloPlanner.wealth_percentiles` (simulation.py lines 112-125):
per-year percentile trajectories at the given levels. -/
def wealth_percentiles (M : List (List ℚ)) (qs : List ℚ) : List (List ℚ) :=
  (List.range (M.headD []).length).map (fun year =>
    qs.map (fun q => percentile (matColumn M year) q))

/-- The terminal-wealth column `wealth_paths[:, -1]`. -/
def lastColumn (M : List (List ℚ)) : List ℚ :=
  M.map (fun row => row.getD (row.length - 1) 0)

/-- `MonteCarloPlanner.final_distribution` (simulation.py lines 127-134). -/
def final_distribution (M : List (List ℚ)) (qs : List ℚ) : List ℚ :=
  qs.map (fun q => percentile (lastColumn M) q)

/-- `MonteCarloPlanner.probability_of_target` (simulation.py lines
136-142): `1.0` when the target is nonpositive, else the fraction of
paths whose terminal wealth reaches the target. -/
def probability_of_target (M : List (List ℚ)) (target : ℚ) : ℚ :=
  if target ≤ 0 then 1
  else ((lastColumn M).countP (fun x => decide (target ≤ x)) : ℚ) / ((lastColumn M).length : ℚ)

/-- The `SimulationResult` dataclass (simulation.py lines 10-17). -/
structure SimulationResult where
  wealth_paths : List (List ℚ)
  ages : List ℤ
  percentiles : List (List ℚ)
  final_distribution : List ℚ
  probability_success : ℚ
  target_wealth : ℚ
deriving DecidableEq

/-- The keyword arguments of `run_simulation` (simulation.py lines
144-156). -/
structure SimArgs where
  current_age : ℤ
  retirement_age : ℤ
  initial_wealth : ℚ
  annual_contribution : ℚ
  desired_retirement_income : ℚ
  withdrawal_rate : ℚ
  inflation : Option ℚ
  n_sims : ℤ
  contribution_growth : Option ℚ
deriving DecidableEq

/-- Line 167-168 of simulation.py: `if inflation is not None:
self.inflation = float(inflation)` — the instance state after the
optional override. -/
def applyInflation (p : Planner) : Option ℚ → Planner
  | some i => { p with inflation := i }
  | none => p

/-- Lines 170-193 of simulation.py, after the inflation override: run the
simulator on the already-updated state `p2`, and on success package
`SimulationResult` (ages `[current_age .. retirement_age]`, the
percentile table, the final distribution, `targetWealth =
income / withdrawal_rate` and the success probability). -/
def runBody (p2 : Planner) (a : SimArgs) (e : Except String (List (List ℚ))) :
    Planner × Except String SimulationResult :=
  match e with
  | Except.error msg => (p2, Except.error msg)
  | Except.ok M =>
      (p2, Except.ok
        { wealth_paths := M
          ages := (List.range ((a.retirement_age - a.current_age).toNat + 1)).map
            (fun k => a.current_age + (k : ℤ))
          percentiles := wealth_percentiles M [10, 25, 50, 75, 90]
          final_distribution := final_distribution M [5, 10, 25, 50, 75, 90, 95]
          probability_success := probability_of_target M
            (if 0 < a.withdrawal_rate then a.desired_retirement_income / a.withdrawal_rate else 0)
          target_wealth :=
            if 0 < a.withdrawal_rate then a.desired_retirement_income / a.withdrawal_rate else 0 })

/-- `MonteCarloPlanner.run_simulation` (simulation.py lines 144-193),
modelled with explicit state passing: the first component is the instance
state after the call — line 168 overwrites `self.inflation` whenever the
`inflation` argument is not `None`, and the overwrite persists even when
the inner `simulate_wealth_paths` rejects its parameters (the validation
of lines 161-164 runs before the overwrite, the simulator's own
validation after it). -/
def run_simulation (p : Planner) (a : SimArgs) (draws : ℕ → ℕ → List ℚ) :
    Planner × Except String SimulationResult :=
  if a.retirement_age ≤ a.current_age then
    (p, Except.error "retirement_age must be greater than current_age.")
  else if a.withdrawal_rate ≤ 0 then
    (p, Except.error "withdrawal_rate must be positive.")
  else
    runBody (applyInflation p a.inflation) a
      (simulate_wealth_paths (applyInflation p a.inflation) a.initial_wealth
        a.annual_contribution (a.retirement_age - a.current_age) a.n_sims
        a.contribution_growth draws)

/-- Whether an `Except` value is the error case (a raised exception in
the Python source). -/
def isErr {α : Type} : Except String α → Bool
  | Except.error _ => true
  | Except.ok _ => false

theorem runBody_fst (p2 : Planner) (a : SimArgs) (e : Except String (List (List ℚ))) :
    (runBody p2 a e).1 = p2 := by
  cases e with
  | error msg => rfl
  | ok M => rfl

theorem applyInflation_eq (p : Planner) (o : Option ℚ) :
    applyInflation p o = { p with inflation := o.getD p.inflation } := by
  cases o with
  | none => rfl
  | some i => rfl

/- ### C1: shape and recurrence of the simulated wealth paths -/

theorem one_add_adjustedReturn_pos (p : Planner) (draws : ℕ → ℕ → List ℚ)
    (year sim : ℕ) (hinfl : -1 < p.inflation) :
    0 < 1 + adjustedReturn p draws year sim := by
  have hden : (0 : ℚ) < 1 + p.inflation := by linarith
  have hnum : (0 : ℚ) < 1 + clippedReturn p draws year sim := by
    have := le_max_right (dot (draws year sim) p.weights) (-(99 / 100) : ℚ)
    unfold clippedReturn
    linarith
  have : 1 + adjustedReturn p draws year sim
      = (1 + clippedReturn p draws year sim) / (1 + p.inflation) := by
    unfold adjustedReturn
    ring
  rw [this]
  exact div_pos hnum hden

theorem wealthRaw_nonneg (p : Planner) (iw ac g : ℚ) (draws : ℕ → ℕ → List ℚ)
    (sim : ℕ) (hiw : 0 ≤ iw) (hac : 0 ≤ ac) (hg : 0 ≤ g)
    (hinfl : -1 < p.inflation) : ∀ year : ℕ, 0 ≤ wealthRaw p iw ac g draws sim year := by
  intro year
  induction year with
  | zero => exact hiw
  | succ y ih =>
    have hcontrib : 0 ≤ contribAt ac g y := by
      unfold contribAt
      have : (0 : ℚ) ≤ (1 + g) ^ y := pow_nonneg (by linarith) y
      exact mul_nonneg hac this
    have hfac : 0 ≤ max (wealthRaw p iw ac g draws sim y) 0 + contribAt ac g y := by
      have := le_max_right (wealthRaw p iw ac g draws sim y) (0 : ℚ)
      linarith
    exact mul_nonneg hfac (one_add_adjustedReturn_pos p draws y sim hinfl).le

/-- C1: on valid input (`initialWealth ≥ 0`, `annualContribution ≥ 0`,
`horizonYears > 0`, `nSims > 0`, together with the SimulationConfig
domain constraints on the growth and inflation rates — the inflation
hypothesis here is the weaker `inflation > −1`), `simulate_wealth_paths`
succeeds with an `nSims × (horizonYears+1)` matrix whose column 0 is
`initialWealth` in every row, whose entries are all nonnegative, and
whose entries satisfy
`wealth[y+1] = (max(wealth[y],0) + contribution[y]) · (1 + realReturn[y])`
with `contribution[y] = annualContribution·(1+growth)^y` and
`realReturn[y] = (1 + max(draw·weights, −0.99))/(1+inflation) − 1`. -/
theorem simulate_wealth_paths_spec (p : Planner) (iw ac : ℚ) (h n : ℤ)
    (g : Option ℚ) (draws : ℕ → ℕ → List ℚ)
    (hh : 0 < h) (hiw : 0 ≤ iw) (hac : 0 ≤ ac) (hn : 0 < n)
    (hg : 0 ≤ g.getD 0) (hinfl : -1 < p.inflation) :
    ∃ M : List (List ℚ),
      simulate_wealth_paths p iw ac h n g draws = Except.ok M
      ∧ M.length = n.toNat
      ∧ (∀ row ∈ M, row.length = h.toNat + 1)
      ∧ (∀ row ∈ M, row.getD 0 0 = iw)
      ∧ (∀ row ∈ M, ∀ x ∈ row, 0 ≤ x)
      ∧ (∀ sim year : ℕ, sim < n.toNat → year < h.toNat →
          (M.getD sim []).getD (year + 1) 0
            = (max ((M.getD sim []).getD year 0) 0 + ac * (1 + g.getD 0) ^ year)
              * (1 + ((1 + max (dot (draws year sim) p.weights) (-(99 / 100)))
                  / (1 + p.inflation) - 1))) := by
  have hraw := wealthRaw_nonneg p iw ac (g.getD 0) draws
  refine ⟨(List.range n.toNat).map (fun sim =>
      (List.range (h.toNat + 1)).map (fun year =>
        max (wealthRaw p iw ac (g.getD 0) draws sim year) 0)),
    ?_, ?_, ?_, ?_, ?_, ?_⟩
  · rw [simulate_wealth_paths, if_neg (by omega), if_neg (not_lt.mpr hiw),
      if_neg (not_lt.mpr hac), if_neg (by omega)]
  · rw [List.length_map, List.length_range]
  · intro row hrow
    obtain ⟨sim, _, hr⟩ := List.mem_map.mp hrow
    rw [← hr, List.length_map, List.length_range]
  · intro row hrow
    obtain ⟨sim, _, hr⟩ := List.mem_map.mp hrow
    rw [← hr, getD_map_range _ (h.toNat + 1) 0 0 (by omega)]
    exact max_eq_left hiw
  · intro row hrow x hx
    obtain ⟨sim, _, hr⟩ := List.mem_map.mp hrow
    rw [← hr] at hx
    obtain ⟨year, _, hxe⟩ := List.mem_map.mp hx
    rw [← hxe]
    exact le_max_right _ 0
  · intro sim year hsim hyear
    rw [getD_map_range _ n.toNat sim [] hsim,
      getD_map_range _ (h.toNat + 1) (year + 1) 0 (by omega),
      getD_map_range _ (h.toNat + 1) year 0 (by omega)]
    rw [max_eq_left (hraw sim hiw hac hg hinfl (year + 1)),
      max_eq_left (hraw sim hiw hac hg hinfl year)]
    show wealthRaw p iw ac (g.getD 0) draws sim (year + 1) = _
    rw [wealthRaw]
    unfold contribAt adjustedReturn clippedReturn
    ring

/-- Witness for C1 at a concrete one-asset planner over two years. -/
theorem simulate_wealth_paths_spec_witness :
    ((0 : ℤ) < 2 ∧ (0 : ℚ) ≤ 100 ∧ (0 : ℚ) ≤ 10 ∧ (0 : ℤ) < 1
      ∧ (0 : ℚ) ≤ (Option.none : Option ℚ).getD 0
      ∧ (-1 : ℚ) < (Planner.mk [1/10] [[0]] [1] 0).inflation)
    ∧ ∃ M : List (List ℚ),
        simulate_wealth_paths ⟨[1/10], [[0]], [1], 0⟩ 100 10 2 1 none (fun _ _ => [1/10])
          = Except.ok M
        ∧ M.length = (1 : ℤ).toNat
        ∧ (∀ row ∈ M, row.length = (2 : ℤ).toNat + 1)
        ∧ (∀ row ∈ M, row.getD 0 0 = 100)
        ∧ (∀ row ∈ M, ∀ x ∈ row, 0 ≤ x)
        ∧ (∀ sim year : ℕ, sim < (1 : ℤ).toNat → year < (2 : ℤ).toNat →
            (M.getD sim []).getD (year + 1) 0
              = (max ((M.getD sim []).getD year 0) 0
                  + 10 * (1 + (Option.none : Option ℚ).getD 0) ^ year)
                * (1 + ((1 + max (dot ((fun _ _ => [(1 : ℚ)/10]) year sim)
                    (Planner.mk [1/10] [[0]] [1] 0).weights) (-(99 / 100)))
                    / (1 + (Planner.mk [1/10] [[0]] [1] 0).inflation) - 1))) :=
  ⟨⟨by norm_num, by norm_num, by norm_num, by norm_num, by norm_num, by norm_num⟩,
    simulate_wealth_paths_spec ⟨[1/10], [[0]], [1], 0⟩ 100 10 2 1 none (fun _ _ => [1/10])
      (by norm_num) (by norm_num) (by norm_num) (by norm_num) (by norm_num) (by norm_num)⟩

/- ### C8: parameter validation happens before any sampling -/

/-- C8: `simulate_wealth_paths` rejects `horizonYears ≤ 0`,
`initialWealth < 0`, `annualContribution < 0` and `nSims ≤ 0`, and
`run_simulation` rejects `retirementAge ≤ currentAge` and
`withdrawalRate ≤ 0`; in each case the outcome is an error that does not
depend on the random draws (the model of "raised before any sampling, no
partial output"). -/
theorem validation_spec (p : Planner) (iw ac : ℚ) (h n : ℤ) (g : Option ℚ)
    (draws draws2 : ℕ → ℕ → List ℚ) (a : SimArgs) :
    ((h ≤ 0 ∨ iw < 0 ∨ ac < 0 ∨ n ≤ 0) →
        isErr (simulate_wealth_paths p iw ac h n g draws) = true
        ∧ simulate_wealth_paths p iw ac h n g draws
            = simulate_wealth_paths p iw ac h n g draws2)
    ∧ ((a.retirement_age ≤ a.current_age ∨ a.withdrawal_rate ≤ 0) →
        isErr (run_simulation p a draws).2 = true
        ∧ run_simulation p a draws = run_simulation p a draws2) := by
  constructor
  · intro hbad
    unfold simulate_wealth_paths
    split_ifs with h1 h2 h3 h4
    · exact ⟨rfl, rfl⟩
    · exact ⟨rfl, rfl⟩
    · exact ⟨rfl, rfl⟩
    · exact ⟨rfl, rfl⟩
    · rcases hbad with hb | hb | hb | hb
      · exact absurd hb h1
      · exact absurd hb h2
      · exact absurd hb h3
      · exact absurd hb h4
  · intro hbad
    unfold run_simulation
    split_ifs with h1 h2
    · exact ⟨rfl, rfl⟩
    · exact ⟨rfl, rfl⟩
    · rcases hbad with hb | hb
      · exact absurd hb h1
      · exact absurd hb h2

/-- Witness for C8: a zero horizon and a retirement age equal to the
current age are both rejected for every draw source. -/
theorem validation_spec_witness :
    (((0 : ℤ) ≤ 0 ∨ (100 : ℚ) < 0 ∨ (10 : ℚ) < 0 ∨ (5 : ℤ) ≤ 0)
      ∧ isErr (simulate_wealth_paths ⟨[1/10], [[0]], [1], 0⟩ 100 10 0 5 none
          (fun _ _ => [1/10])) = true)
    ∧ (((40 : ℤ) ≤ 40 ∨ (1 : ℚ)/25 ≤ 0)
      ∧ isErr (run_simulation ⟨[1/10], [[0]], [1], 0⟩
          ⟨40, 40, 100, 10, 80, 1/25, none, 5, none⟩ (fun _ _ => [1/10])).2 = true) := by
  have h1 := (validation_spec ⟨[1/10], [[0]], [1], 0⟩ 100 10 0 5 none
    (fun _ _ => [1/10]) (fun _ _ => [1/10])
    ⟨40, 40, 100, 10, 80, 1/25, none, 5, none⟩).1 (Or.inl le_rfl)
  have h2 := (validation_spec ⟨[1/10], [[0]], [1], 0⟩ 100 10 0 5 none
    (fun _ _ => [1/10]) (fun _ _ => [1/10])
    ⟨40, 40, 100, 10, 80, 1/25, none, 5, none⟩).2 (Or.inl le_rfl)
  exact ⟨⟨Or.inl le_rfl, h1.1⟩, ⟨Or.inl le_rfl, h2.1⟩⟩

/- ### C9: what run_simulation does to the planner state -/

/-- C9 (amended): `run_simulation` never changes the stored expected
returns, covariance or weights; it leaves the planner untouched when its
own validation fails, and otherwise sets the stored inflation to the
`inflation` argument when one is supplied (an overwrite that persists
after the call returns); consequently two identical seeded calls return
identical results whenever no intervening call supplies an `inflation`
override. -/
theorem run_simulation_state (p : Planner) (a a2 : SimArgs)
    (draws draws2 : ℕ → ℕ → List ℚ) (hnone : a2.inflation = none) :
    (run_simulation p a draws).1.expected_returns = p.expected_returns
    ∧ (run_simulation p a draws).1.covariance = p.covariance
    ∧ (run_simulation p a draws).1.weights = p.weights
    ∧ (run_simulation p a draws).1
        = (if a.current_age < a.retirement_age ∧ 0 < a.withdrawal_rate
           then { p with inflation := a.inflation.getD p.inflation }
           else p)
    ∧ run_simulation (run_simulation p a2 draws2).1 a draws = run_simulation p a draws := by
  have hmain : ∀ q : Planner, ∀ b : SimArgs, ∀ d : ℕ → ℕ → List ℚ,
      (run_simulation q b d).1
        = (if b.current_age < b.retirement_age ∧ 0 < b.withdrawal_rate
           then { q with inflation := b.inflation.getD q.inflation }
           else q) := by
    intro q b d
    unfold run_simulation
    by_cases h1 : b.retirement_age ≤ b.current_age
    · rw [if_pos h1,
        if_neg (fun hc : b.current_age < b.retirement_age ∧ 0 < b.withdrawal_rate =>
          absurd hc.1 (not_lt.mpr h1))]
    · rw [if_neg h1]
      by_cases h2 : b.withdrawal_rate ≤ 0
      · rw [if_pos h2,
          if_neg (fun hc : b.current_age < b.retirement_age ∧ 0 < b.withdrawal_rate =>
            absurd hc.2 (not_lt.mpr h2))]
      · rw [if_neg h2, runBody_fst, applyInflation_eq,
          if_pos ⟨not_le.mp h1, not_le.mp h2⟩]
  have hfix : (run_simulation p a2 draws2).1 = p := by
    rw [hmain p a2 draws2, hnone]
    split_ifs with h
    · rfl
    · rfl
  refine ⟨?_, ?_, ?_, hmain p a draws, by rw [hfix]⟩
  · rw [hmain p a draws]
    split_ifs with h
    · rfl
    · rfl
  · rw [hmain p a draws]
    split_ifs with h
    · rfl
    · rfl
  · rw [hmain p a draws]
    split_ifs with h
    · rfl
    · rfl

/-- Witness for C9 at concrete arguments (the intervening call passes no
inflation override). -/
theorem run_simulation_state_witness :
    ((⟨35, 45, 100, 10, 80, 1/25, some (3/100), 5, none⟩ : SimArgs).inflation = some (3/100)
      ∧ (⟨30, 40, 50, 5, 40, 1/20, none, 3, none⟩ : SimArgs).inflation = none)
    ∧ ((run_simulation ⟨[1/10], [[0]], [1], 0⟩
          ⟨35, 45, 100, 10, 80, 1/25, some (3/100), 5, none⟩
          (fun _ _ => [1/10])).1.weights = [1]
      ∧ (run_simulation ⟨[1/10], [[0]], [1], 0⟩
          ⟨35, 45, 100, 10, 80, 1/25, some (3/100), 5, none⟩
          (fun _ _ => [1/10])).1
          = (if (35 : ℤ) < 45 ∧ (0 : ℚ) < 1/25
             then { Planner.mk [1/10] [[0]] [1] 0 with
                      inflation := (some ((3 : ℚ)/100)).getD 0 }
             else ⟨[1/10], [[0]], [1], 0⟩)
      ∧ run_simulation (run_simulation ⟨[1/10], [[0]], [1], 0⟩
            ⟨30, 40, 50, 5, 40, 1/20, none, 3, none⟩ (fun _ _ => [2/10])).1
            ⟨35, 45, 100, 10, 80, 1/25, some (3/100), 5, none⟩ (fun _ _ => [1/10])
          = run_simulation ⟨[1/10], [[0]], [1], 0⟩
            ⟨35, 45, 100, 10, 80, 1/25, some (3/100), 5, none⟩ (fun _ _ => [1/10])) := by
  have hs := run_simulation_state ⟨[1/10], [[0]], [1], 0⟩
    ⟨35, 45, 100, 10, 80, 1/25, some (3/100), 5, none⟩
    ⟨30, 40, 50, 5, 40, 1/20, none, 3, none⟩
    (fun _ _ => [1/10]) (fun _ _ => [2/10]) rfl
  exact ⟨⟨rfl, rfl⟩, hs.2.2.1, hs.2.2.2.1, hs.2.2.2.2⟩

/- ### C9 counterexample: the inflation override is retained state -/

/-- Concrete planner for the state-retention counterexample. -/
def cxPlanner : Planner := ⟨[1/10], [[0]], [1], 0⟩

/-- A one-year, one-path argument set with no inflation override. -/
def cxArgs : SimArgs := ⟨30, 31, 100, 0, 0, 1/25, none, 1, none⟩

/-- The same arguments with `inflation=0.5` supplied. -/
def cxArgsInfl : SimArgs := ⟨30, 31, 100, 0, 0, 1/25, some (1/2), 1, none⟩

/-- A fixed (seeded) draw source: every year/path draws a 10% return. -/
def cxDraws : ℕ → ℕ → List ℚ := fun _ _ => [1/10]

theorem cxSimEval (infl : ℚ) (hinfl : 0 ≤ infl) :
    simulate_wealth_paths ⟨[1/10], [[0]], [1], infl⟩ 100 0 1 1 none cxDraws
      = Except.ok [[100, 110 / (1 + infl)]] := by
  have hpos : (0 : ℚ) < 1 + infl := by linarith
  have hadj : adjustedReturn ⟨[1/10], [[0]], [1], infl⟩ cxDraws 0 0
      = (1 + 1/10) / (1 + infl) - 1 := by
    unfold adjustedReturn clippedReturn cxDraws dot
    rw [show List.zipWith (fun a b => a * b) [(1 : ℚ)/10] [(1 : ℚ)] = [1/10 * 1] from rfl]
    rw [show ([(1 : ℚ)/10 * 1]).sum = 1/10 * 1 + 0 from rfl]
    rw [max_eq_left (by norm_num : -((99 : ℚ)/100) ≤ 1/10 * 1 + 0)]
    norm_num
  have hw0 : wealthRaw ⟨[1/10], [[0]], [1], infl⟩ 100 0 0 cxDraws 0 0 = 100 := rfl
  have hw1 : wealthRaw ⟨[1/10], [[0]], [1], infl⟩ 100 0 0 cxDraws 0 1 = 110 / (1 + infl) := by
    show (max (wealthRaw ⟨[1/10], [[0]], [1], infl⟩ 100 0 0 cxDraws 0 0) 0 + contribAt 0 0 0)
        * (1 + adjustedReturn ⟨[1/10], [[0]], [1], infl⟩ cxDraws 0 0) = 110 / (1 + infl)
    rw [hw0, hadj, max_eq_left (by norm_num : (0 : ℚ) ≤ 100)]
    rw [show contribAt 0 0 0 = 0 by norm_num [contribAt]]
    field_simp
    ring
  rw [simulate_wealth_paths, if_neg (by norm_num), if_neg (by norm_num),
    if_neg (by norm_num), if_neg (by norm_num)]
  have ht : (1 : ℤ).toNat = 1 := rfl
  rw [ht, show List.range 1 = [0] from rfl, show (1 : ℕ) + 1 = 2 from rfl,
    show List.range 2 = [0, 1] from rfl]
  simp only [List.map_cons, List.map_nil, Option.getD_none]
  rw [hw0, hw1, max_eq_left (by norm_num : (0 : ℚ) ≤ 100),
    max_eq_left (div_nonneg (by norm_num) hpos.le)]

theorem cxRunEval (infl : ℚ) (hinfl : 0 ≤ infl) :
    (run_simulation ⟨[1/10], [[0]], [1], infl⟩ cxArgs cxDraws).2.toOption.map
      SimulationResult.wealth_paths = some [[100, 110 / (1 + infl)]] := by
  rw [run_simulation,
    if_neg (show ¬(cxArgs.retirement_age ≤ cxArgs.current_age) by decide),
    if_neg (show ¬(cxArgs.withdrawal_rate ≤ 0) by norm_num [cxArgs])]
  rw [show applyInflation (⟨[1/10], [[0]], [1], infl⟩ : Planner) cxArgs.inflation
      = ⟨[1/10], [[0]], [1], infl⟩ from rfl]
  rw [show (cxArgs.retirement_age - cxArgs.current_age : ℤ) = 1 by decide]
  rw [show cxArgs.initial_wealth = 100 from rfl, show cxArgs.annual_contribution = 0 from rfl,
    show cxArgs.n_sims = 1 from rfl, show cxArgs.contribution_growth = none from rfl]
  rw [cxSimEval infl hinfl]
  rw [show runBody (⟨[1/10], [[0]], [1], infl⟩ : Planner) cxArgs
        (Except.ok [[100, 110 / (1 + infl)]])
      = (⟨[1/10], [[0]], [1], infl⟩,
         Except.ok
           { wealth_paths := [[100, 110 / (1 + infl)]]
             ages := (List.range ((cxArgs.retirement_age - cxArgs.current_age).toNat + 1)).map
               (fun k => cxArgs.current_age + (k : ℤ))
             percentiles := wealth_percentiles [[100, 110 / (1 + infl)]] [10, 25, 50, 75, 90]
             final_distribution :=
               final_distribution [[100, 110 / (1 + infl)]] [5, 10, 25, 50, 75, 90, 95]
             probability_success := probability_of_target [[100, 110 / (1 + infl)]]
               (if 0 < cxArgs.withdrawal_rate
                then cxArgs.desired_retirement_income / cxArgs.withdrawal_rate else 0)
             target_wealth :=
               if 0 < cxArgs.withdrawal_rate
               then cxArgs.desired_retirement_income / cxArgs.withdrawal_rate else 0 })
      from rfl]
  rfl

/-- Counterexample for C9 as stated: `run_simulation` with
`inflation=0.5` permanently overwrites the planner's stored inflation
(`0` before, `1/2` after), and a later call that repeats earlier
arguments and draws — identical in every respect — returns different
wealth paths (`[[100, 220/3]]` instead of `[[100, 110]]`), so state IS
retained between invocations. -/
theorem run_simulation_counterexample :
    (run_simulation cxPlanner cxArgsInfl cxDraws).1.inflation = 1/2
    ∧ cxPlanner.inflation = 0
    ∧ ((run_simulation (run_simulation cxPlanner cxArgsInfl cxDraws).1 cxArgs cxDraws).2.toOption.map
          SimulationResult.wealth_paths) = some [[100, 220/3]]
    ∧ ((run_simulation cxPlanner cxArgs cxDraws).2.toOption.map
          SimulationResult.wealth_paths) = some [[100, 110]]
    ∧ ((run_simulation (run_simulation cxPlanner cxArgsInfl cxDraws).1 cxArgs cxDraws).2.toOption.map
          SimulationResult.wealth_paths)
        ≠ ((run_simulation cxPlanner cxArgs cxDraws).2.toOption.map
          SimulationResult.wealth_paths) := by
  have hp2 : (run_simulation cxPlanner cxArgsInfl cxDraws).1 = ⟨[1/10], [[0]], [1], 1/2⟩ := by
    rw [run_simulation,
      if_neg (show ¬(cxArgsInfl.retirement_age ≤ cxArgsInfl.current_age) by decide),
      if_neg (show ¬(cxArgsInfl.withdrawal_rate ≤ 0) by norm_num [cxArgsInfl])]
    rw [runBody_fst]
    rfl
  have hA : ((run_simulation (run_simulation cxPlanner cxArgsInfl cxDraws).1 cxArgs
      cxDraws).2.toOption.map SimulationResult.wealth_paths) = some [[100, 220/3]] := by
    rw [hp2, cxRunEval (1/2) (by norm_num)]
    norm_num
  have hB : ((run_simulation cxPlanner cxArgs cxDraws).2.toOption.map
      SimulationResult.wealth_paths) = some [[100, 110]] := by
    have := cxRunEval 0 (le_refl 0)
    rw [show cxPlanner = (⟨[1/10], [[0]], [1], 0⟩ : Planner) from rfl, this]
    norm_num
  refine ⟨by rw [hp2], rfl, hA, hB, ?_⟩
  rw [hA, hB]
  intro hcontra
  have : ((220 : ℚ)/3) = 110 := by
    have h1 := Option.some.inj hcontra
    have h2 := List.head_eq_of_cons_eq h1
    have h3 := List.head_eq_of_cons_eq (List.tail_eq_of_cons_eq h2)
    exact h3
  norm_num at this

/- ### C10: weight normalization at construction -/

theorem sum_map_mul (c : ℚ) (l : List ℚ) : (l.map (fun x => c * x)).sum = c * l.sum := by
  induction l with
  | nil => simp
  | cons a t ih => simp [ih, mul_add]

/-- C10 (amended): the constructor rejects any weights whose sum lies
within `np.isclose`'s absolute tolerance of zero (`|Σw| ≤ 1e-8`) with an
error rather than a uniform fallback; otherwise it stores `w / Σw`, which
sums to `1`, and the stored vector is identical for `w` and `c·w` for
every positive scalar `c` SUCH THAT the scaled sum still clears the
absolute tolerance (`|c·Σw| > 1e-8`) — an absolute tolerance is not
scale-invariant, so sufficiently small `c` break the invariance (see the
counterexample). -/
theorem mkPlanner_weights_spec (er : List ℚ) (cov : List (List ℚ)) (w : List ℚ) (infl : ℚ)
    (hlen : w.length = er.length) :
    (|w.sum| ≤ 1 / 100000000 → isErr (mkPlanner er cov w infl) = true)
    ∧ (1 / 100000000 < |w.sum| →
        ∃ p : Planner, mkPlanner er cov w infl = Except.ok p
          ∧ p.weights = w.map (fun x => x / w.sum)
          ∧ p.weights.sum = 1
          ∧ (∀ c : ℚ, 0 < c → 1 / 100000000 < |(w.map (fun x => c * x)).sum| →
              mkPlanner er cov (w.map (fun x => c * x)) infl = Except.ok p)) := by
  constructor
  · intro hsmall
    rw [mkPlanner, if_neg (by simp [hlen]), if_pos hsmall]
    rfl
  · intro hbig
    have hs0 : w.sum ≠ 0 := by
      intro h0
      rw [h0, abs_zero] at hbig
      norm_num at hbig
    refine ⟨⟨er, cov, w.map (fun x => x / w.sum), infl⟩, ?_, rfl, ?_, ?_⟩
    · rw [mkPlanner, if_neg (by simp [hlen]), if_neg (not_le.mpr hbig)]
    · rw [sum_map_div]
      exact div_self hs0
    · intro c hc hcbig
      have hclen : ¬((w.map (fun x => c * x)).length ≠ er.length) := by
        simp [List.length_map, hlen]
      rw [mkPlanner, if_neg hclen, if_neg (not_le.mpr hcbig)]
      have hmap : (w.map (fun x => c * x)).map
            (fun x => x / (w.map (fun x => c * x)).sum)
          = w.map (fun x => x / w.sum) := by
        rw [sum_map_mul, List.map_map]
        apply List.map_congr_left
        intro a _
        show (c * a) / (c * w.sum) = a / w.sum
        rw [mul_div_mul_left a w.sum (ne_of_gt hc)]
      rw [hmap]

/-- Witness for C10 at `w = [2, 2]` and the scale factor `c = 3`. -/
theorem mkPlanner_weights_spec_witness :
    ([(2 : ℚ), 2].length = [(0 : ℚ), 0].length
      ∧ (1 : ℚ) / 100000000 < |[(2 : ℚ), 2].sum|)
    ∧ (∃ p : Planner, mkPlanner [0, 0] [[0, 0], [0, 0]] [2, 2] 0 = Except.ok p
        ∧ p.weights = [(2 : ℚ), 2].map (fun x => x / [(2 : ℚ), 2].sum)
        ∧ p.weights.sum = 1
        ∧ (∀ c : ℚ, 0 < c → 1 / 100000000 < |([(2 : ℚ), 2].map (fun x => c * x)).sum| →
            mkPlanner [0, 0] [[0, 0], [0, 0]] ([(2 : ℚ), 2].map (fun x => c * x)) 0
              = Except.ok p)) := by
  have hyp1 : [(2 : ℚ), 2].length = [(0 : ℚ), 0].length := rfl
  have hyp2 : (1 : ℚ) / 100000000 < |[(2 : ℚ), 2].sum| := by
    simp
    norm_num
  exact ⟨⟨hyp1, hyp2⟩,
    (mkPlanner_weights_spec [0, 0] [[0, 0], [0, 0]] [2, 2] 0 hyp1).2 hyp2⟩

/-- Counterexample for C10 as stated: `w = [1]` is accepted (stored as
`[1]`), the scalar `c = 1e-9` is positive, yet `c·w = [1e-9]` sums below
the absolute `1e-8` tolerance and is rejected at construction — so the
stored weights are NOT identical for `w` and `c·w` for every positive
scalar `c`. -/
theorem mkPlanner_counterexample :
    (mkPlanner [0] [[0]] [1] 0).toOption = some ⟨[0], [[0]], [1], 0⟩
    ∧ (0 : ℚ) < 1 / 1000000000
    ∧ (mkPlanner [0] [[0]] ([(1 : ℚ)].map (fun x => (1 / 1000000000) * x)) 0).toOption
        = none := by
  refine ⟨?_, by norm_num, ?_⟩
  · rw [mkPlanner, if_neg (by simp), if_neg (by simp; norm_num)]
    have : [(1 : ℚ)].map (fun x => x / [(1 : ℚ)].sum) = [1] := by
      simp
    rw [this]
    rfl
  · rw [show ([(1 : ℚ)].map (fun x => (1 / 1000000000) * x)) = [1 / 1000000000] by norm_num]
    have hsmall : |([(1 : ℚ) / 1000000000]).sum| ≤ 1 / 100000000 := by
      rw [show ([(1 : ℚ) / 1000000000]).sum = 1 / 1000000000 by simp]
      rw [abs_of_pos (by norm_num : (0 : ℚ) < 1 / 1000000000)]
      norm_num
    rw [mkPlanner, if_neg (by simp), if_pos hsmall]
    rfl

end RiskControl
